import Mathlib

/-!
# Desert Extraction — verification of the core game logic

Shallow embedding of the gameplay core of the `desertextraction` repository
(a browser first-person survival shooter) together with proofs of the
specified properties.

Embedded components and their sources:

* `PlayerState`, `takeDamage`, `heal`, `playerUpdate`, `playerReset`
  — `src/game/Player.js`
* `WeaponState`, `shoot`, `reloadStart`, `applyReloadCompletion`, `weaponReset`
  — `src/game/Weapon.js`
* `EnemyState`, `getStats`, `enemyReset` — `src/game/Enemy.js`
* `Pool`, `poolAcquire`, `poolRelease` — `ObjectPool.js`
* `GameState`, `GameSim`, `gameTick`, `killStep` — the quota-based
  `Game.js` revision (`Game.update`, `GameStateMachine.setState`)
* `Trap`, `checkTrapCollision` — `World.js` (`createTraps`,
  `checkTrapCollision`)
* `Session`, `resetGame`, `resetForNextLevel` — `Game.js`
  (`resetGame`, `nextLevel`, `resetForNextLevel`)

JavaScript numbers are modelled as rationals (`ℚ`) or integers (`ℤ`);
all the arithmetic the game performs on them is exact in those types.
Purely presentational state (meshes, materials, HUD, head-bob, muzzle
flash, tracers) is outside the model.  The square root inside
`Vector3.normalize` and the sine/cosine inside `applyAxisAngle` are the
only non-rational operations the core performs; `playerUpdate` therefore
receives their values (`invLen`, `cosYaw`, `sinYaw`) as inputs alongside
the per-frame control vector, exactly where the code calls them.
-/

/-- A 3-component vector of exact rationals (the model of `THREE.Vector3`
as used by the game logic). -/
structure Vec3 where
  x : ℚ
  y : ℚ
  z : ℚ
deriving DecidableEq, Repr

def Vec3.zero : Vec3 := ⟨0, 0, 0⟩

/-- Squared Euclidean distance.  `Vector3.distanceTo` is its square root;
since both sides of every comparison the game makes are nonnegative,
`dist p q < r` is equivalent to `distSq p q < r ^ 2` (for `0 ≤ r`), and the
embedding states proximity tests in the squared form. -/
def distSq (a b : Vec3) : ℚ :=
  (a.x - b.x) ^ 2 + (a.y - b.y) ^ 2 + (a.z - b.z) ^ 2

/-! ## Player (`src/game/Player.js`) -/

/-- The player state: every field of `Player` that influences gameplay
(`scene`, `camera` and the head-bob are presentation only). -/
structure PlayerState where
  health : ℚ
  maxHealth : ℚ
  isDead : Bool
  walkSpeed : ℚ
  sprintSpeed : ℚ
  jumpForce : ℚ
  gravity : ℚ
  velocity : Vec3
  onGround : Bool
  height : ℚ
  radius : ℚ
  pitchLimit : ℚ
  pitch : ℚ
  yaw : ℚ
  position : Vec3
  lastDamageTime : ℚ
  damageCooldown : ℚ
deriving DecidableEq, Repr

/-- The constructor values of `Player` (health 100, walk 8, sprint 14,
jump 10, gravity 25, height 1.8, damage cooldown 500 ms).  `pitchLimit`
is `π/2 - 0.1` in the source; it is irrational, so the model takes it as
a parameter. -/
def initialPlayer (pitchLimit : ℚ) : PlayerState where
  health := 100
  maxHealth := 100
  isDead := false
  walkSpeed := 8
  sprintSpeed := 14
  jumpForce := 10
  gravity := 25
  velocity := Vec3.zero
  onGround := true
  height := 9/5
  radius := 2/5
  pitchLimit := pitchLimit
  pitch := 0
  yaw := 0
  position := ⟨0, 9/5, 0⟩
  lastDamageTime := 0
  damageCooldown := 500

/-- `Player.takeDamage(amount)`: no-op returning `false` inside the damage
cooldown window, otherwise records the hit time, floors health at 0 and
marks the player dead when health reaches 0, returning `true`.
`now` is `performance.now()` in milliseconds. -/
def takeDamage (p : PlayerState) (now amount : ℚ) : Bool × PlayerState :=
  if now - p.lastDamageTime < p.damageCooldown then (false, p)
  else
    let h := max 0 (p.health - amount)
    (true, { p with lastDamageTime := now
                    health := h
                    isDead := if h ≤ 0 then true else p.isDead })

/-- `Player.heal(amount)`: raises health, clamped at `maxHealth`. -/
def heal (p : PlayerState) (amount : ℚ) : PlayerState :=
  { p with health := min p.maxHealth (p.health + amount) }

/-- `Player.reset()`: restores health and life, respawns at the origin at
standing height, zeroes velocity and look angles. -/
def playerReset (p : PlayerState) : PlayerState :=
  { p with health := p.maxHealth
           isDead := false
           position := ⟨0, p.height, 0⟩
           velocity := Vec3.zero
           pitch := 0
           yaw := 0 }

/-- The per-frame control vector read by `Player.update`, together with
the values of the non-rational operations the frame performs:
`invLen` is `1 / moveDir.length()` (used by `Vector3.normalize` when the
movement input is nonzero) and `cosYaw`/`sinYaw` are the cosine and sine
of the frame's yaw (used by `applyAxisAngle` on the Y axis). -/
structure PlayerInput where
  mouseDx : ℚ
  mouseDy : ℚ
  pointerLocked : Bool
  moveForward : ℚ
  moveRight : ℚ
  sprinting : Bool
  jumping : Bool
  invLen : ℚ
  cosYaw : ℚ
  sinYaw : ℚ
deriving DecidableEq, Repr

/-- `Player.update(deltaTime)`: entirely a no-op when dead; otherwise
applies look rotation with pitch clamping, computes the yaw-rotated
normalized movement direction, sets horizontal velocity instantaneously,
handles jump impulse and gravity, integrates position, clamps to ground
level (snapping vertical velocity and `onGround`), and clamps the
horizontal position to the 45-unit arena bound. -/
def playerUpdate (p : PlayerState) (dt : ℚ) (inp : PlayerInput) : PlayerState :=
  if p.isDead then p
  else
    let yaw1 := if inp.pointerLocked then p.yaw - inp.mouseDx else p.yaw
    let pitch1 :=
      if inp.pointerLocked then
        max (-p.pitchLimit) (min p.pitchLimit (p.pitch - inp.mouseDy))
      else p.pitch
    let speed := if inp.sprinting then p.sprintSpeed else p.walkSpeed
    -- moveDir: x = movement.right, z = -movement.forward, normalized if nonzero
    let mdx := inp.moveRight
    let mdz := -inp.moveForward
    let nx := if mdx = 0 ∧ mdz = 0 then mdx else mdx * inp.invLen
    let nz := if mdx = 0 ∧ mdz = 0 then mdz else mdz * inp.invLen
    -- applyAxisAngle((0,1,0), yaw)
    let rx := nx * inp.cosYaw + nz * inp.sinYaw
    let rz := -nx * inp.sinYaw + nz * inp.cosYaw
    let vx := rx * speed
    let vz := rz * speed
    let jumped := inp.jumping ∧ p.onGround
    let vy0 := if jumped then p.jumpForce else p.velocity.y
    let grounded0 := if jumped then false else p.onGround
    let vy1 := if grounded0 then vy0 else vy0 - p.gravity * dt
    let px := p.position.x + vx * dt
    let py := p.position.y + vy1 * dt
    let pz := p.position.z + vz * dt
    let hitGround := py < p.height
    let py2 := if hitGround then p.height else py
    let vy2 := if hitGround then 0 else vy1
    let grounded2 := if hitGround then true else grounded0
    let bounds : ℚ := 45
    { p with yaw := yaw1
             pitch := pitch1
             velocity := ⟨vx, vy2, vz⟩
             onGround := grounded2
             position := ⟨max (-bounds) (min bounds px), py2,
                          max (-bounds) (min bounds pz)⟩ }

/-! ## Weapon (`src/game/Weapon.js`) -/

/-- The weapon state: every field of `Weapon` that influences gameplay.
Times are in seconds (`performance.now() / 1000`), matching `shoot`. -/
structure WeaponState where
  damage : ℤ
  fireRate : ℚ
  lastFireTime : ℚ
  ammo : ℤ
  maxAmmo : ℤ
  reserveAmmo : ℤ
  isReloading : Bool
  reloadTime : ℚ
  recoilAmount : ℚ
deriving DecidableEq, Repr

/-- The constructor values of `Weapon` (damage 25, fire rate 0.2 s,
magazine 12, reserve 60, reload 1.5 s). -/
def initialWeapon : WeaponState where
  damage := 25
  fireRate := 1/5
  lastFireTime := 0
  ammo := 12
  maxAmmo := 12
  reserveAmmo := 60
  isReloading := false
  reloadTime := 3/2
  recoilAmount := 0

/-- The hit-scan descriptor `shoot` returns on success: the player's
position as ray origin and facing as ray direction. -/
structure HitScan where
  origin : Vec3
  direction : Vec3
deriving DecidableEq, Repr

/-- `Weapon.shoot()`: rejects when the fire-rate interval has not elapsed,
the magazine is empty, or a reload is in progress; otherwise records the
fire time, decrements ammo, sets recoil to its maximum (1) and returns
the hit-scan descriptor built from the player's current position and
facing.  `now` is the current time in seconds; `pos`/`dir` are
`player.getPosition()` / `player.getDirection()`. -/
def shoot (w : WeaponState) (now : ℚ) (pos dir : Vec3) :
    Option HitScan × WeaponState :=
  if now - w.lastFireTime < w.fireRate then (none, w)
  else if w.ammo ≤ 0 ∨ w.isReloading then (none, w)
  else
    (some ⟨pos, dir⟩,
     { w with lastFireTime := now, ammo := w.ammo - 1, recoilAmount := 1 })

/-- `Weapon.reload()` at the moment of the call: a no-op when already
reloading, the magazine is full, or the reserve is empty; otherwise sets
the reloading flag and schedules a completion callback carrying
`available = min(maxAmmo - ammo, reserveAmmo)`, computed now.  The
returned `Option ℤ` is that scheduled amount (`none` when nothing was
scheduled). -/
def reloadStart (w : WeaponState) : WeaponState × Option ℤ :=
  if w.isReloading ∨ w.ammo = w.maxAmmo ∨ w.reserveAmmo ≤ 0 then (w, none)
  else ({ w with isReloading := true },
        some (min (w.maxAmmo - w.ammo) w.reserveAmmo))

/-- The body of the `setTimeout` callback scheduled by `Weapon.reload()`:
unconditionally adds the captured amount to the magazine, subtracts it
from the reserve and clears the reloading flag.  The source performs no
staleness or session check before mutating. -/
def applyReloadCompletion (w : WeaponState) (available : ℤ) : WeaponState :=
  { w with ammo := w.ammo + available
           reserveAmmo := w.reserveAmmo - available
           isReloading := false }

/-- `Weapon.reset()`: refills the magazine to capacity, restores the
reserve to 60, clears the reloading flag and the recoil.  It does not
cancel or invalidate a pending reload-completion callback. -/
def weaponReset (w : WeaponState) : WeaponState :=
  { w with ammo := w.maxAmmo
           reserveAmmo := 60
           isReloading := false
           recoilAmount := 0 }

/-! ## Enemy (`src/game/Enemy.js`) -/

/-- An archetype stat profile, as returned by `Enemy.getStats`. -/
structure EnemyStats where
  health : ℚ
  speed : ℚ
  damage : ℚ
  attackRange : ℚ
  attackCooldown : ℚ
  scoreValue : ℚ
deriving DecidableEq, Repr

/-- `Enemy.getStats(type)`: the switch on the archetype tag.  Unknown tags
fall through to the default (grunt-valued) profile. -/
def getStats (ty : String) : EnemyStats :=
  if ty = "grunt" then ⟨50, 4, 10, 2, 1000, 100⟩
  else if ty = "runner" then ⟨30, 8, 5, 3/2, 500, 150⟩
  else if ty = "tank" then ⟨150, 2, 25, 5/2, 2000, 300⟩
  else if ty = "boss" then ⟨500, 3, 40, 3, 1500, 1000⟩
  else ⟨50, 4, 10, 2, 1000, 100⟩

/-- The enemy state: every field of `Enemy` that influences gameplay
(mesh, health bar and the animation phase `animTime` are presentation
only). -/
structure EnemyState where
  type : String
  health : ℚ
  maxHealth : ℚ
  speed : ℚ
  damage : ℚ
  attackRange : ℚ
  attackCooldown : ℚ
  scoreValue : ℚ
  isDead : Bool
  lastAttackTime : ℚ
  isAttacking : Bool
  position : Vec3
  velocity : Vec3
deriving DecidableEq, Repr

/-- `Enemy.reset(position, type)`: the pool-reinitialization entry point.
Reloads the stat profile for the archetype, restores health to that
profile's maximum, clears the death flag, attack timer and attacking
flag, repositions and zeroes velocity. -/
def enemyReset (_e : EnemyState) (position : Vec3) (ty : String) : EnemyState :=
  let stats := getStats ty
  { type := ty
    health := stats.health
    maxHealth := stats.health
    speed := stats.speed
    damage := stats.damage
    attackRange := stats.attackRange
    attackCooldown := stats.attackCooldown
    scoreValue := stats.scoreValue
    isDead := false
    lastAttackTime := 0
    isAttacking := false
    position := position
    velocity := Vec3.zero }

/-- `Enemy.takeDamage(amount)`: ignored when already dead; otherwise
subtracts health and, at 0 or below, transitions to dead, returning
whether this hit killed the enemy. -/
def enemyTakeDamage (e : EnemyState) (amount : ℚ) : Bool × EnemyState :=
  if e.isDead then (false, e)
  else
    let h := e.health - amount
    if h ≤ 0 then (true, { e with health := h, isDead := true })
    else (false, { e with health := h })

/-! ## ObjectPool (`src/game/ObjectPool.js`)

Object identity is modelled by natural-number ids: the factory hands out
fresh ids counted by `nextId`, standing for the distinct object
references `new Enemy(...)` produces.  The JavaScript `available` array
is pushed and popped at its end; the model stores it most-recent-first,
so `push` is `cons` and `pop` takes the head.  `inUse` is kept in array
order: `push` appends, and `indexOf` + `splice(i, 1)` removes the first
occurrence, which is `List.erase`. -/

structure Pool where
  available : List ℕ
  inUse : List ℕ
  nextId : ℕ
deriving DecidableEq, Repr

/-- The `ObjectPool` constructor: pre-populates `available` with
`initialSize` freshly constructed instances and starts `inUse` empty. -/
def initPool (initialSize : ℕ) : Pool :=
  { available := (List.range initialSize).reverse
    inUse := []
    nextId := initialSize }

/-- `ObjectPool.acquire(...)`: pops an available instance, or constructs a
new one when none is available, and appends it to `inUse`, returning it.
(The reinitializer call it performs on the instance is `enemyReset`,
modelled separately.) -/
def poolAcquire (p : Pool) : ℕ × Pool :=
  match p.available with
  | x :: rest => (x, { p with available := rest, inUse := p.inUse ++ [x] })
  | [] => (p.nextId, { available := []
                       inUse := p.inUse ++ [p.nextId]
                       nextId := p.nextId + 1 })

/-- `ObjectPool.release(obj)`: removes the instance from `inUse` and
pushes it onto `available`; a no-op when the instance is not in use. -/
def poolRelease (p : Pool) (x : ℕ) : Pool :=
  if x ∈ p.inUse then
    { p with inUse := p.inUse.erase x, available := x :: p.available }
  else p

/-- An operation on the pool, for reasoning about arbitrary
acquire/release sequences. -/
inductive PoolOp where
  | acquire : PoolOp
  | release : ℕ → PoolOp
deriving DecidableEq, Repr

def poolStep (p : Pool) : PoolOp → Pool
  | .acquire => (poolAcquire p).2
  | .release x => poolRelease p x

def poolRun (p : Pool) : List PoolOp → Pool
  | [] => p
  | op :: ops => poolRun (poolStep p op) ops

/-! ## Game state machine and the objective check (`GameStates.js`,
quota-based `Game.js`) -/

/-- `GameState`: the mission phase enumeration. -/
inductive GameState where
  | PLAYING
  | OBJECTIVE_COMPLETE
  | SHIP_ACCESSIBLE
  | LEVEL_COMPLETE
  | GAME_OVER
  | VICTORY
deriving DecidableEq, Repr

/-- The abstraction of the quota-based `Game` the objective logic reads
and writes: the state machine's current/previous phase, the spawn quota
bookkeeping, and the number of enemies currently alive (the pool's
active, visible, not-dead members — a killed enemy is hidden and
released synchronously by the `ENEMY_KILLED` listener). -/
structure GameSim where
  phase : GameState
  prevPhase : Option GameState
  enemiesSpawned : ℕ
  totalEnemies : ℕ
  alive : ℕ
deriving DecidableEq, Repr

/-- `GameStateMachine.setState(newState)`: a no-op when the state is
unchanged; otherwise records the previous state and switches. -/
def setState (g : GameSim) (s : GameState) : GameSim :=
  if g.phase = s then g
  else { g with prevPhase := some g.phase, phase := s }

/-- The objective condition checked each tick by `Game.update`: in the
`PLAYING` phase, the spawn quota fully issued and zero enemies alive. -/
def objectiveCond (g : GameSim) : Bool :=
  g.phase = GameState.PLAYING ∧ g.totalEnemies ≤ g.enemiesSpawned ∧ g.alive = 0

/-- The spawn step inside `Game.update`: in the `PLAYING` phase, while
the quota is not fully issued, when the spawn-interval timer has elapsed
(`timerReady`), one enemy is acquired from the pool and counted. -/
def spawnStep (g : GameSim) (timerReady : Bool) : GameSim :=
  if g.phase = GameState.PLAYING ∧ g.enemiesSpawned < g.totalEnemies ∧ timerReady
  then { g with enemiesSpawned := g.enemiesSpawned + 1, alive := g.alive + 1 }
  else g

/-- The objective check inside `Game.update`: when the condition holds,
the `OBJECTIVE_COMPLETE` event is emitted and its listener drives the
machine to `OBJECTIVE_COMPLETE`, immediately followed by the
`SHIP_DOOR_OPENED` event driving it to `SHIP_ACCESSIBLE`. -/
def objectiveStep (g : GameSim) : GameSim :=
  if objectiveCond g then
    setState (setState g GameState.OBJECTIVE_COMPLETE) GameState.SHIP_ACCESSIBLE
  else g

/-- `Game.checkShipEntry`, guarded by the `SHIP_ACCESSIBLE` check in
`Game.update`: proximity to the secret item (`nearItem`) emits
`ITEM_COLLECTED`, driving the machine to `LEVEL_COMPLETE`. -/
def shipEntryStep (g : GameSim) (nearItem : Bool) : GameSim :=
  if g.phase = GameState.SHIP_ACCESSIBLE ∧ nearItem then
    setState g GameState.LEVEL_COMPLETE
  else g

/-- One tick of `Game.update` as it affects the phase machine: a dead
player transitions the machine to `GAME_OVER` and ends the tick;
otherwise the periodic spawn step runs, then the objective check, then
the ship-entry check, in the source's order. -/
def gameTick (g : GameSim) (playerDied timerReady nearItem : Bool) : GameSim :=
  if playerDied then setState g GameState.GAME_OVER
  else shipEntryStep (objectiveStep (spawnStep g timerReady)) nearItem

/-- A kill between ticks (the `handleShoot` → `ENEMY_KILLED` path): one
alive enemy is marked dead, hidden and released. -/
def killStep (g : GameSim) : GameSim :=
  if 0 < g.alive then { g with alive := g.alive - 1 } else g

/-- An operation on the running game within one level: a frame tick or an
enemy kill. -/
inductive GameOp where
  | tick : Bool → Bool → Bool → GameOp
  | kill : GameOp
deriving DecidableEq, Repr

def gameStep (g : GameSim) : GameOp → GameSim
  | .tick pd sp ni => gameTick g pd sp ni
  | .kill => killStep g

def gameRun (g : GameSim) : List GameOp → GameSim
  | [] => g
  | op :: ops => gameRun (gameStep g op) ops

/-- Whether an operation fires the `PLAYING → OBJECTIVE_COMPLETE`
transition (the objective check passing during a tick). -/
def opFires (g : GameSim) : GameOp → Bool
  | .tick pd sp _ => ¬pd ∧ objectiveCond (spawnStep g sp)
  | .kill => false

/-- How many operations of a run fire the objective transition. -/
def countFires (g : GameSim) : List GameOp → ℕ
  | [] => 0
  | op :: ops =>
      (if opFires g op then 1 else 0) + countFires (gameStep g op) ops

/-! ## Hazards (`src/game/World.js`) -/

/-- A landmine trap record as built by `World.createTraps`: position,
trigger radius, damage payload, and the one-shot `triggered` flag.  (The
`type` tag is always the string for a mine and only selects the visual
explosion; the mesh is presentation.) -/
structure Trap where
  position : Vec3
  radius : ℚ
  damage : ℚ
  triggered : Bool
deriving DecidableEq, Repr

/-- The five mines registered by `World.createTraps`, in registration
order: positions (5,0,5), (-8,0,12), (12,0,-8), (-15,0,-5), (0,0,15),
each with trigger radius 1.5, damage 50, and `triggered = false`. -/
def initialTraps : List Trap :=
  [⟨⟨5, 0, 5⟩, 3/2, 50, false⟩,
   ⟨⟨-8, 0, 12⟩, 3/2, 50, false⟩,
   ⟨⟨12, 0, -8⟩, 3/2, 50, false⟩,
   ⟨⟨-15, 0, -5⟩, 3/2, 50, false⟩,
   ⟨⟨0, 0, 15⟩, 3/2, 50, false⟩]

/-- `World.checkTrapCollision(playerPosition)`: walks the trap list in
registration order, skipping triggered traps; the first untriggered trap
strictly within its trigger radius of the player is marked triggered and
its damage returned, ending the scan; 0 damage when none qualifies.
Proximity is stated squared: `distance < radius ↔ distSq < radius²`
(radii are positive). -/
def checkTrapCollision : List Trap → Vec3 → List Trap × ℚ
  | [], _ => ([], 0)
  | t :: ts, p =>
      if t.triggered then
        let r := checkTrapCollision ts p
        (t :: r.1, r.2)
      else if distSq p t.position < t.radius ^ 2 then
        ({ t with triggered := true } :: ts, t.damage)
      else
        let r := checkTrapCollision ts p
        (t :: r.1, r.2)

/-- The trap list after a sequence of per-tick collision checks at the
given player positions. -/
def runChecks (traps : List Trap) : List Vec3 → List Trap
  | [] => traps
  | p :: ps => runChecks (checkTrapCollision traps p).1 ps

/-- Whether the trap at index `i` is triggered (out-of-range indices
count as triggered, so they can never fire). -/
def triggeredAt (traps : List Trap) (i : ℕ) : Bool :=
  (traps.getD i ⟨Vec3.zero, 0, 0, true⟩).triggered

/-- Whether the check at position `p` fires the trap at index `i`: its
`triggered` flag flips from false to true during the check. -/
def checkFiresAt (traps : List Trap) (p : Vec3) (i : ℕ) : Bool :=
  ¬triggeredAt traps i ∧ triggeredAt (checkTrapCollision traps p).1 i

/-- How many checks of a sequence fire the trap at index `i`. -/
def countTrapFires (traps : List Trap) (ps : List Vec3) (i : ℕ) : ℕ :=
  match ps with
  | [] => 0
  | p :: ps =>
      (if checkFiresAt traps p i then 1 else 0)
      + countTrapFires (checkTrapCollision traps p).1 ps i

/-! ## Session resets (quota-based `Game.js`) -/

/-- `Game.levelConfig[level].enemyCount`: 8, 12, 15 for levels 1–3. -/
def levelEnemyCount (level : ℕ) : ℕ :=
  if level = 1 then 8 else if level = 2 then 12 else if level = 3 then 15 else 0

/-- The session-level state touched by `Game.resetGame` and
`Game.resetForNextLevel`: phase machine, counters, level bookkeeping,
player, weapon, enemy pool, the world's ship door, and the world's trap
registry. -/
structure Session where
  phase : GameState
  prevPhase : Option GameState
  currentTime : ℚ
  kills : ℕ
  score : ℚ
  level : ℕ
  enemiesSpawned : ℕ
  lastSpawnTime : ℚ
  totalEnemiesToSpawn : ℕ
  player : PlayerState
  weapon : WeaponState
  pool : Pool
  alive : ℕ
  doorOpen : Bool
  traps : List Trap
deriving DecidableEq, Repr

/-- `Game.resetGame()`: resets the state machine to `PLAYING`, zeroes the
timers, counters and spawn bookkeeping back to level 1, resets the player
and weapon, discards and rebuilds the enemy pool with 15 fresh instances,
and closes the ship door.  It does not touch the world's traps. -/
def resetGame (s : Session) : Session :=
  { s with phase := GameState.PLAYING
           prevPhase := none
           currentTime := 0
           kills := 0
           score := 0
           level := 1
           enemiesSpawned := 0
           lastSpawnTime := 0
           totalEnemiesToSpawn := levelEnemyCount 1
           player := playerReset s.player
           weapon := weaponReset s.weapon
           pool := initPool 15
           alive := 0
           doorOpen := false }

/-- `Game.spawnEnemy()` at session level: while the quota is not filled,
acquires a pooled instance and counts it as spawned and alive. -/
def sessionSpawnEnemy (s : Session) : Session :=
  if s.enemiesSpawned < s.totalEnemiesToSpawn then
    { s with pool := (poolAcquire s.pool).2
             enemiesSpawned := s.enemiesSpawned + 1
             alive := s.alive + 1 }
  else s

/-- `Game.spawnWave()`: spawns the initial wave of
`min(3, totalEnemiesToSpawn)` enemies. -/
def spawnWave (s : Session) : Session :=
  sessionSpawnEnemy (sessionSpawnEnemy (sessionSpawnEnemy s))

/-- `Game.resetForNextLevel()` (reached from `nextLevel` after the level
counter was advanced): resets the state machine to `PLAYING`, resets the
spawn bookkeeping to the new level's quota, resets the player, closes the
ship door and spawns the initial wave.  It does not touch the world's
traps. -/
def resetForNextLevel (s : Session) : Session :=
  spawnWave
    { s with phase := GameState.PLAYING
             prevPhase := none
             enemiesSpawned := 0
             totalEnemiesToSpawn := levelEnemyCount s.level
             player := playerReset s.player
             doorOpen := false }

/-! ## Helper definitions for sequenced calls -/

/-- The player state after a sequence of further `takeDamage` calls, each
given as a (time, amount) pair. -/
def applyDamageCalls (p : PlayerState) : List (ℚ × ℚ) → PlayerState
  | [] => p
  | c :: cs => applyDamageCalls (takeDamage p c.1 c.2).2 cs

/-! ## Theorems -/

/-- **C3** (Reinitialization completeness).  After `Enemy.reset(position,
archetype)` on a previously used slot, every behavior-affecting field is
overwritten from the new archetype's profile: health and maxHealth equal
that profile's maximum, the enemy is alive, the attack timer and
attacking flag are cleared, speed/damage/attackRange/attackCooldown/
scoreValue come from the profile, position and velocity are reset; the
result is independent of the slot's prior life, and in particular a slot
that died at health 0 as a tank and is reacquired as a runner has
exactly the runner's maximum health 30. -/
theorem enemyReset_completeness (e : EnemyState) (pos : Vec3) (ty : String) :
    (enemyReset e pos ty).health = (getStats ty).health ∧
    (enemyReset e pos ty).maxHealth = (getStats ty).health ∧
    (enemyReset e pos ty).isDead = false ∧
    (enemyReset e pos ty).lastAttackTime = 0 ∧
    (enemyReset e pos ty).isAttacking = false ∧
    (enemyReset e pos ty).speed = (getStats ty).speed ∧
    (enemyReset e pos ty).damage = (getStats ty).damage ∧
    (enemyReset e pos ty).attackRange = (getStats ty).attackRange ∧
    (enemyReset e pos ty).attackCooldown = (getStats ty).attackCooldown ∧
    (enemyReset e pos ty).scoreValue = (getStats ty).scoreValue ∧
    (enemyReset e pos ty).position = pos ∧
    (enemyReset e pos ty).velocity = Vec3.zero ∧
    (enemyReset e pos ty).type = ty ∧
    (∀ e2 : EnemyState, enemyReset e pos ty = enemyReset e2 pos ty) ∧
    (enemyReset
        { enemyReset e Vec3.zero "tank" with health := 0, isDead := true }
        pos "runner").health = 30 := by
  refine ⟨rfl, rfl, rfl, rfl, rfl, rfl, rfl, rfl, rfl, rfl, rfl, rfl, rfl,
    fun _ => rfl, ?_⟩
  simp [enemyReset, getStats]

/-- **C5** (Damage cooldown).  `Player.takeDamage(amount)` returns `false`
and leaves the whole player state unchanged within the cooldown window
since the last applied hit; otherwise it subtracts `amount` from health
floored at 0, records the hit time, returns `true`, and flips the alive
flag off when health reaches 0.  Consequently any sequence of further
calls all falling within one cooldown window of an applied first hit
leaves the state exactly as after that first hit. -/
theorem takeDamage_cooldown (p : PlayerState) (now amount : ℚ) :
    (now - p.lastDamageTime < p.damageCooldown →
      takeDamage p now amount = (false, p)) ∧
    (p.damageCooldown ≤ now - p.lastDamageTime →
      (takeDamage p now amount).1 = true ∧
      (takeDamage p now amount).2.health = max 0 (p.health - amount) ∧
      (takeDamage p now amount).2.lastDamageTime = now ∧
      ((takeDamage p now amount).2.health = 0 →
        (takeDamage p now amount).2.isDead = true)) ∧
    (p.damageCooldown ≤ now - p.lastDamageTime →
      ∀ calls : List (ℚ × ℚ), (∀ c ∈ calls, c.1 - now < p.damageCooldown) →
        applyDamageCalls (takeDamage p now amount).2 calls
          = (takeDamage p now amount).2) := by
  have hcool : ∀ q : PlayerState, ∀ calls : List (ℚ × ℚ),
      (∀ c ∈ calls, c.1 - q.lastDamageTime < q.damageCooldown) →
      applyDamageCalls q calls = q := by
    intro q calls
    induction calls with
    | nil => intro _; rfl
    | cons c cs ih =>
      intro h
      have hc := h c (List.mem_cons_self c cs)
      have : takeDamage q c.1 c.2 = (false, q) := by
        unfold takeDamage
        rw [if_pos hc]
      simp only [applyDamageCalls, this]
      exact ih fun d hd => h d (List.mem_cons_of_mem c hd)
  refine ⟨?_, ?_, ?_⟩
  · intro h
    unfold takeDamage
    rw [if_pos h]
  · intro h
    unfold takeDamage
    rw [if_neg (not_lt.mpr h)]
    refine ⟨rfl, rfl, rfl, ?_⟩
    intro hz
    have hz' : (0 : ℚ) ⊔ (p.health - amount) = 0 := by simpa using hz
    show (if (0 : ℚ) ⊔ (p.health - amount) ≤ 0 then true else p.isDead) = true
    rw [hz']
    simp
  · intro h calls hcalls
    have hafter : (takeDamage p now amount).2.lastDamageTime = now ∧
        (takeDamage p now amount).2.damageCooldown = p.damageCooldown := by
      unfold takeDamage
      rw [if_neg (not_lt.mpr h)]
      exact ⟨rfl, rfl⟩
    exact hcool _ calls (by rw [hafter.1, hafter.2]; exact hcalls)

/-- Witness for `takeDamage_cooldown`: with the freshly constructed
player (cooldown 500 ms, last hit at 0), a hit of 30 at t=600 applies and
leaves health 70; further hits at t=700 and t=900 are inside the window
and change nothing. -/
theorem takeDamage_cooldown_witness :
    (takeDamage (initialPlayer 0) 600 30).1 = true ∧
    (takeDamage (initialPlayer 0) 600 30).2.health = 70 ∧
    applyDamageCalls (takeDamage (initialPlayer 0) 600 30).2
        [(700, 30), (900, 50)]
      = (takeDamage (initialPlayer 0) 600 30).2 := by
  have h := takeDamage_cooldown (initialPlayer 0) 600 30
  have hge : (initialPlayer 0).damageCooldown
      ≤ 600 - (initialPlayer 0).lastDamageTime := by
    norm_num [initialPlayer]
  refine ⟨(h.2.1 hge).1, ?_, ?_⟩
  · rw [(h.2.1 hge).2.1]
    norm_num [initialPlayer]
  · refine h.2.2 hge _ ?_
    intro c hc
    simp only [List.mem_cons, List.not_mem_nil, or_false] at hc
    rcases hc with hc | hc <;> rw [hc] <;> norm_num [initialPlayer]

/-- **C10** (implicit frame property of `Player.heal`).  `heal` changes
only the health field, clamped at `maxHealth`; the alive flag and every
other field are untouched, so a dead player stays dead after any heal,
and `Player.update` remains a complete no-op on any dead player. -/
theorem heal_frame (p : PlayerState) (a : ℚ) :
    (heal p a).health = min p.maxHealth (p.health + a) ∧
    (heal p a).health ≤ p.maxHealth ∧
    (heal p a).isDead = p.isDead ∧
    (heal p a).maxHealth = p.maxHealth ∧
    (heal p a).position = p.position ∧
    (heal p a).velocity = p.velocity ∧
    (heal p a).onGround = p.onGround ∧
    (heal p a).pitch = p.pitch ∧
    (heal p a).yaw = p.yaw ∧
    (heal p a).lastDamageTime = p.lastDamageTime ∧
    (heal p a).damageCooldown = p.damageCooldown ∧
    (p.isDead = true →
      (heal p a).isDead = true ∧
      ∀ (dt : ℚ) (inp : PlayerInput), playerUpdate (heal p a) dt inp = heal p a) := by
  refine ⟨rfl, min_le_left _ _, rfl, rfl, rfl, rfl, rfl, rfl, rfl, rfl, rfl, ?_⟩
  intro hd
  refine ⟨hd, ?_⟩
  intro dt inp
  unfold playerUpdate
  rw [if_pos]
  show (heal p a).isDead = true
  exact hd

/-- Witness for `heal_frame`: a player dead at health 0 healed by 50 has
health 50 but is still dead, and a frame update leaves it unchanged. -/
theorem heal_frame_witness :
    (heal { initialPlayer 0 with health := 0, isDead := true } 50).health = 50 ∧
    (heal { initialPlayer 0 with health := 0, isDead := true } 50).isDead = true ∧
    playerUpdate (heal { initialPlayer 0 with health := 0, isDead := true } 50) 1
        ⟨0, 0, true, 1, 0, false, false, 1, 1, 0⟩
      = heal { initialPlayer 0 with health := 0, isDead := true } 50 := by
  have h := heal_frame { initialPlayer 0 with health := 0, isDead := true } 50
  refine ⟨?_, (h.2.2.2.2.2.2.2.2.2.2.2 rfl).1, (h.2.2.2.2.2.2.2.2.2.2.2 rfl).2 1 _⟩
  rw [h.1]
  norm_num [initialPlayer]


/-- A rejected fire attempt: any of the three gating conditions makes
`shoot` return no hit and leave the weapon untouched. -/
lemma shoot_reject (w : WeaponState) (now : ℚ) (pos dir : Vec3)
    (h : now - w.lastFireTime < w.fireRate ∨ w.ammo ≤ 0 ∨ w.isReloading = true) :
    shoot w now pos dir = (none, w) := by
  unfold shoot
  rcases h with h | h
  · rw [if_pos h]
  · by_cases h1 : now - w.lastFireTime < w.fireRate
    · rw [if_pos h1]
    · rw [if_neg h1, if_pos (by simpa using h)]

/-- A successful fire: with all gates open, `shoot` returns the hit-scan
descriptor and the updated weapon. -/
lemma shoot_success (w : WeaponState) (now : ℚ) (pos dir : Vec3)
    (h1 : w.fireRate ≤ now - w.lastFireTime) (h2 : 0 < w.ammo)
    (h3 : w.isReloading = false) :
    shoot w now pos dir =
      (some ⟨pos, dir⟩,
       { w with lastFireTime := now, ammo := w.ammo - 1, recoilAmount := 1 }) := by
  unfold shoot
  rw [if_neg (not_lt.mpr h1), if_neg]
  push_neg
  exact ⟨by omega, by simp [h3]⟩

/-- **C6** (Fire gating).  `Weapon.shoot` fails exactly when the weapon
is reloading, the magazine is empty, or less than the fire-rate interval
has elapsed since the last successful fire; a failed attempt changes
nothing, a successful one decrements ammo by exactly 1, records the fire
time, sets recoil to its maximum 1 and returns a hit-scan descriptor
carrying the player's current position and facing; hence two attempts
less than the fire interval apart produce exactly one success and a net
ammo change of exactly 1. -/
theorem shoot_gating (w : WeaponState) (now : ℚ) (pos dir : Vec3)
    (hammo : 0 ≤ w.ammo) :
    ((shoot w now pos dir).1 = none ↔
      w.isReloading = true ∨ w.ammo = 0 ∨ now - w.lastFireTime < w.fireRate) ∧
    ((shoot w now pos dir).1 = none → (shoot w now pos dir).2 = w) ∧
    ((shoot w now pos dir).1 ≠ none →
      (shoot w now pos dir).1 = some ⟨pos, dir⟩ ∧
      (shoot w now pos dir).2.ammo = w.ammo - 1 ∧
      (shoot w now pos dir).2.lastFireTime = now ∧
      (shoot w now pos dir).2.recoilAmount = 1 ∧
      (shoot w now pos dir).2.reserveAmmo = w.reserveAmmo ∧
      (shoot w now pos dir).2.isReloading = w.isReloading) ∧
    (w.isReloading = false → 0 < w.ammo → w.fireRate ≤ now - w.lastFireTime →
      ∀ (now2 : ℚ) (pos2 dir2 : Vec3), now2 - now < w.fireRate →
        (shoot w now pos dir).1 ≠ none ∧
        (shoot (shoot w now pos dir).2 now2 pos2 dir2).1 = none ∧
        (shoot (shoot w now pos dir).2 now2 pos2 dir2).2.ammo = w.ammo - 1) := by
  by_cases hfail :
      w.isReloading = true ∨ w.ammo = 0 ∨ now - w.lastFireTime < w.fireRate
  · have hrej : shoot w now pos dir = (none, w) := by
      apply shoot_reject
      rcases hfail with h | h | h
      · exact Or.inr (Or.inr h)
      · exact Or.inr (Or.inl h.le)
      · exact Or.inl h
    rw [hrej]
    refine ⟨by simpa using hfail, fun _ => rfl, by simp, ?_⟩
    intro hnr hpos hrate _ _ _ _
    rcases hfail with h | h | h
    · exact absurd h (by simp [hnr])
    · omega
    · exact absurd h (not_lt.mpr hrate)
  · push_neg at hfail
    obtain ⟨hnr, hnz, hrate⟩ := hfail
    have hnr' : w.isReloading = false := by
      cases h : w.isReloading
      · rfl
      · exact absurd h hnr
    have hsucc := shoot_success w now pos dir hrate
      (lt_of_le_of_ne hammo (Ne.symm hnz)) hnr'
    refine ⟨by rw [hsucc]; simp [hnr, hnz, not_lt.mpr hrate],
      by rw [hsucc]; simp, ?_, ?_⟩
    · intro _
      rw [hsucc]
      exact ⟨rfl, rfl, rfl, rfl, rfl, rfl⟩
    · intro _ _ _ now2 pos2 dir2 hclose
      set w1 := (shoot w now pos dir).2 with hw1
      have hl : w1.lastFireTime = now := by rw [hw1, hsucc]
      have hf : w1.fireRate = w.fireRate := by rw [hw1, hsucc]
      have ha : w1.ammo = w.ammo - 1 := by rw [hw1, hsucc]
      have hrej2 : shoot w1 now2 pos2 dir2 = (none, w1) :=
        shoot_reject w1 now2 pos2 dir2 (Or.inl (by rw [hl, hf]; exact hclose))
      refine ⟨by rw [hsucc]; simp, by rw [hrej2], by rw [hrej2]; exact ha⟩

/-- Witness for `shoot_gating`: the freshly constructed weapon (12 rounds,
0.2 s fire interval, last fire time 0) fired at t=1 s succeeds, and a
second attempt at t=1.1 s is rejected, leaving 11 rounds. -/
theorem shoot_gating_witness :
    (shoot initialWeapon 1 Vec3.zero Vec3.zero).1 ≠ none ∧
    (shoot (shoot initialWeapon 1 Vec3.zero Vec3.zero).2 (11/10) Vec3.zero
        Vec3.zero).1 = none ∧
    (shoot (shoot initialWeapon 1 Vec3.zero Vec3.zero).2 (11/10) Vec3.zero
        Vec3.zero).2.ammo = initialWeapon.ammo - 1 :=
  (shoot_gating initialWeapon 1 Vec3.zero Vec3.zero
      (by norm_num [initialWeapon])).2.2.2
    (by norm_num [initialWeapon]) (by norm_num [initialWeapon])
    (by norm_num [initialWeapon]) (11/10) Vec3.zero Vec3.zero
    (by norm_num [initialWeapon])

/-- **C7** (Reload semantics).  `Weapon.reload()` is a no-op when already
reloading, when the magazine is full, or when the reserve is empty;
otherwise it sets the reloading flag and schedules a completion carrying
`min(magazineCapacity - ammo, reserve)`, which on firing adds that amount
to the magazine, subtracts it from the reserve and clears the flag.  From
ammo 3 / capacity 12 / reserve 60 a completed reload yields ammo 12,
reserve 51; from ammo 3 / reserve 5 it yields ammo 8, reserve 0. -/
theorem reload_semantics (w : WeaponState) :
    (w.isReloading = true ∨ w.ammo = w.maxAmmo ∨ w.reserveAmmo ≤ 0 →
      reloadStart w = (w, none)) ∧
    (¬(w.isReloading = true ∨ w.ammo = w.maxAmmo ∨ w.reserveAmmo ≤ 0) →
      (reloadStart w).2 = some (min (w.maxAmmo - w.ammo) w.reserveAmmo) ∧
      (reloadStart w).1.isReloading = true ∧
      (reloadStart w).1.ammo = w.ammo ∧
      (reloadStart w).1.reserveAmmo = w.reserveAmmo ∧
      (applyReloadCompletion (reloadStart w).1
          (min (w.maxAmmo - w.ammo) w.reserveAmmo)).ammo
        = w.ammo + min (w.maxAmmo - w.ammo) w.reserveAmmo ∧
      (applyReloadCompletion (reloadStart w).1
          (min (w.maxAmmo - w.ammo) w.reserveAmmo)).reserveAmmo
        = w.reserveAmmo - min (w.maxAmmo - w.ammo) w.reserveAmmo ∧
      (applyReloadCompletion (reloadStart w).1
          (min (w.maxAmmo - w.ammo) w.reserveAmmo)).isReloading = false) ∧
    ((applyReloadCompletion (reloadStart { initialWeapon with ammo := 3 }).1
        (((reloadStart { initialWeapon with ammo := 3 }).2).getD 0)).ammo = 12 ∧
     (applyReloadCompletion (reloadStart { initialWeapon with ammo := 3 }).1
        (((reloadStart { initialWeapon with ammo := 3 }).2).getD 0)).reserveAmmo
       = 51 ∧
     (applyReloadCompletion (reloadStart { initialWeapon with ammo := 3 }).1
        (((reloadStart { initialWeapon with ammo := 3 }).2).getD 0)).isReloading
       = false) ∧
    ((applyReloadCompletion
        (reloadStart { initialWeapon with ammo := 3, reserveAmmo := 5 }).1
        (((reloadStart
            { initialWeapon with ammo := 3, reserveAmmo := 5 }).2).getD 0)).ammo
       = 8 ∧
     (applyReloadCompletion
        (reloadStart { initialWeapon with ammo := 3, reserveAmmo := 5 }).1
        (((reloadStart { initialWeapon with ammo := 3, reserveAmmo := 5 }).2).getD 0)).reserveAmmo = 0) := by
  refine ⟨?_, ?_, ⟨by decide, by decide, by decide⟩, by decide, by decide⟩
  · intro h
    unfold reloadStart
    rw [if_pos h]
  · intro h
    unfold reloadStart applyReloadCompletion
    rw [if_neg h]
    exact ⟨rfl, rfl, rfl, rfl, rfl, rfl, rfl⟩

/-- Witness for `reload_semantics`: from the freshly constructed weapon
with 3 rounds left, the reload start is not a no-op — it schedules
exactly 9 rounds and raises the reloading flag — and on a full weapon
the call is a no-op. -/
theorem reload_semantics_witness :
    (reloadStart { initialWeapon with ammo := 3 }).2 = some 9 ∧
    (reloadStart { initialWeapon with ammo := 3 }).1.isReloading = true ∧
    reloadStart initialWeapon = (initialWeapon, none) := by
  have h := (reload_semantics { initialWeapon with ammo := 3 }).2.1
      (by norm_num [initialWeapon])
  have hfull := (reload_semantics initialWeapon).1
      (by norm_num [initialWeapon])
  refine ⟨?_, h.2.1, hfull⟩
  rw [h.1]
  norm_num [initialWeapon]

/-- **C1** (Stale deferred callbacks).  The specification requires a
stale reload-completion callback to be detected and discarded after
`Weapon.reset()` or a game restart; the code schedules the completion
with `setTimeout` and the callback body mutates unconditionally, with no
session or liveness check.  Concretely: with 3 rounds in the magazine,
`reload()` schedules +9; `reset()` then refills the magazine to 12; when
the stale callback fires, the magazine holds 21 rounds — above its
capacity of 12 — so the discarding the claim describes does not happen
in the code. -/
theorem stale_reload_corrupts_reset_weapon :
    (applyReloadCompletion
        (weaponReset (reloadStart { initialWeapon with ammo := 3 }).1)
        (((reloadStart { initialWeapon with ammo := 3 }).2).getD 0)).ammo
      = 21 ∧
    initialWeapon.maxAmmo = 12 ∧
    ¬(applyReloadCompletion
        (weaponReset (reloadStart { initialWeapon with ammo := 3 }).1)
        (((reloadStart { initialWeapon with ammo := 3 }).2).getD 0)).ammo
      ≤ (weaponReset (reloadStart { initialWeapon with ammo := 3 }).1).maxAmmo :=
  ⟨by decide, by decide, by decide⟩
/-! ## Pool invariant -/

/-- The pool's correctness invariant: no instance occurs twice across the
two sets, and together they hold exactly the instances ever constructed
(ids below `nextId`). -/
def PoolInv (p : Pool) : Prop :=
  (p.available ++ p.inUse).Nodup ∧
  ∀ x, x ∈ p.available ++ p.inUse ↔ x < p.nextId

lemma poolInv_init (n : ℕ) : PoolInv (initPool n) := by
  constructor
  · simpa [initPool] using (List.nodup_range n)
  · intro x
    simp [initPool]

/-- `acquire` on a non-empty available stack pops its top. -/
lemma poolAcquire_cons {p : Pool} {y : ℕ} {rest : List ℕ}
    (hav : p.available = y :: rest) :
    poolAcquire p = (y, { p with available := rest, inUse := p.inUse ++ [y] }) := by
  unfold poolAcquire
  rw [hav]

/-- `acquire` on an empty available stack constructs the next fresh id. -/
lemma poolAcquire_nil {p : Pool} (hav : p.available = []) :
    poolAcquire p = (p.nextId,
      { available := [], inUse := p.inUse ++ [p.nextId],
        nextId := p.nextId + 1 }) := by
  unfold poolAcquire
  rw [hav]

lemma poolInv_acquire {p : Pool} (h : PoolInv p) : PoolInv (poolAcquire p).2 := by
  obtain ⟨hnd, hmem⟩ := h
  unfold poolAcquire
  cases hav : p.available with
  | cons x rest =>
    rw [hav] at hnd hmem
    have hperm : ((x :: rest) ++ p.inUse).Perm (rest ++ (p.inUse ++ [x])) := by
      rw [← List.append_assoc]
      exact (List.perm_append_singleton x (rest ++ p.inUse)).symm
    exact ⟨hperm.nodup hnd, fun y => (hperm.mem_iff).symm.trans (hmem y)⟩
  | nil =>
    rw [hav] at hnd hmem
    simp only [List.nil_append] at hnd hmem
    constructor
    · simp only [List.nil_append]
      rw [List.nodup_append]
      refine ⟨hnd, List.nodup_singleton _, ?_⟩
      intro y hy
      simp only [List.mem_singleton]
      intro heq
      have := (hmem y).mp hy
      omega
    · intro y
      simp only [List.nil_append, List.mem_append, List.mem_singleton]
      rw [hmem y]
      omega

lemma poolInv_release {p : Pool} (x : ℕ) (h : PoolInv p) :
    PoolInv (poolRelease p x) := by
  obtain ⟨hnd, hmem⟩ := h
  unfold poolRelease
  by_cases hx : x ∈ p.inUse
  · rw [if_pos hx]
    have hperm : (p.available ++ p.inUse).Perm
        ((x :: p.available) ++ p.inUse.erase x) :=
      (List.Perm.append_left p.available (List.perm_cons_erase hx)).trans
        List.perm_middle
    exact ⟨hperm.nodup hnd, fun y => (hperm.mem_iff).symm.trans (hmem y)⟩
  · rw [if_neg hx]
    exact ⟨hnd, hmem⟩

lemma poolInv_step {p : Pool} (op : PoolOp) (h : PoolInv p) :
    PoolInv (poolStep p op) := by
  cases op with
  | acquire => exact poolInv_acquire h
  | release x => exact poolInv_release x h

lemma poolInv_run {p : Pool} (ops : List PoolOp) (h : PoolInv p) :
    PoolInv (poolRun p ops) := by
  induction ops generalizing p with
  | nil => exact h
  | cons op ops ih => exact ih (poolInv_step op h)

/-- **C4** (Pool exclusivity).  After any sequence of acquire/release
operations from a freshly constructed pool, the available and in-use
sets are disjoint and their union is exactly the set of instances ever
constructed by the pool (ids below `nextId`); moreover `acquire` moves
an available instance into in-use, constructing a fresh instance only
when none is available, and `release` moves an in-use instance back to
available and is a no-op for anything not in use. -/
theorem pool_exclusivity (n : ℕ) (ops : List PoolOp) :
    (∀ x, ¬(x ∈ (poolRun (initPool n) ops).available ∧
            x ∈ (poolRun (initPool n) ops).inUse)) ∧
    (∀ x, (x ∈ (poolRun (initPool n) ops).available ∨
           x ∈ (poolRun (initPool n) ops).inUse) ↔
          x < (poolRun (initPool n) ops).nextId) ∧
    ((poolRun (initPool n) ops).available ≠ [] →
      (poolAcquire (poolRun (initPool n) ops)).1
          ∈ (poolRun (initPool n) ops).available ∧
      (poolAcquire (poolRun (initPool n) ops)).1
          ∉ (poolAcquire (poolRun (initPool n) ops)).2.available ∧
      (poolAcquire (poolRun (initPool n) ops)).1
          ∈ (poolAcquire (poolRun (initPool n) ops)).2.inUse ∧
      (poolAcquire (poolRun (initPool n) ops)).2.nextId
          = (poolRun (initPool n) ops).nextId) ∧
    ((poolRun (initPool n) ops).available = [] →
      (poolAcquire (poolRun (initPool n) ops)).1
          = (poolRun (initPool n) ops).nextId ∧
      (poolAcquire (poolRun (initPool n) ops)).2.nextId
          = (poolRun (initPool n) ops).nextId + 1) ∧
    (∀ x, x ∉ (poolRun (initPool n) ops).inUse →
      poolRelease (poolRun (initPool n) ops) x = poolRun (initPool n) ops) ∧
    (∀ x, x ∈ (poolRun (initPool n) ops).inUse →
      x ∈ (poolRelease (poolRun (initPool n) ops) x).available ∧
      x ∉ (poolRelease (poolRun (initPool n) ops) x).inUse) := by
  obtain ⟨hnd, hmem⟩ := poolInv_run ops (poolInv_init n)
  set p := poolRun (initPool n) ops
  have hdisj := List.disjoint_of_nodup_append hnd
  refine ⟨?_, ?_, ?_, ?_, ?_, ?_⟩
  · intro x ⟨ha, hu⟩
    exact hdisj ha hu
  · intro x
    rw [← List.mem_append]
    exact hmem x
  · intro hne
    cases hav : p.available with
    | nil => exact absurd hav hne
    | cons y rest =>
      have hnd' : p.available.Nodup := (List.nodup_append.mp hnd).1
      rw [hav] at hnd'
      rw [poolAcquire_cons hav]
      refine ⟨List.mem_cons_self y rest, ?_, by simp, rfl⟩
      exact (List.nodup_cons.mp hnd').1
  · intro hav
    rw [poolAcquire_nil hav]
    exact ⟨rfl, rfl⟩
  · intro x hx
    unfold poolRelease
    rw [if_neg hx]
  · intro x hx
    have hnd' : p.inUse.Nodup := (List.nodup_append.mp hnd).2.1
    unfold poolRelease
    rw [if_pos hx]
    exact ⟨List.mem_cons_self x _, hnd'.not_mem_erase⟩

/-- Witness for `pool_exclusivity`: after one acquire on a fresh pool of
two instances, instance 1 is in exactly one set, and both constructed
instances are accounted for. -/
theorem pool_exclusivity_witness :
    ¬((1 : ℕ) ∈ (poolRun (initPool 2) [PoolOp.acquire]).available ∧
      (1 : ℕ) ∈ (poolRun (initPool 2) [PoolOp.acquire]).inUse) ∧
    ((0 : ℕ) ∈ (poolRun (initPool 2) [PoolOp.acquire]).available ∨
     (0 : ℕ) ∈ (poolRun (initPool 2) [PoolOp.acquire]).inUse) :=
  ⟨(pool_exclusivity 2 [PoolOp.acquire]).1 1,
   ((pool_exclusivity 2 [PoolOp.acquire]).2.1 0).mpr (by decide)⟩

/-! ## Trap lemmas -/

lemma triggeredAt_cons_zero (t : Trap) (ts : List Trap) :
    triggeredAt (t :: ts) 0 = t.triggered := rfl

lemma triggeredAt_cons_succ (t : Trap) (ts : List Trap) (i : ℕ) :
    triggeredAt (t :: ts) (i + 1) = triggeredAt ts i := rfl

lemma checkTrap_cons_triggered {t : Trap} (ts : List Trap) (p : Vec3)
    (h : t.triggered = true) :
    checkTrapCollision (t :: ts) p =
      (t :: (checkTrapCollision ts p).1, (checkTrapCollision ts p).2) := by
  simp [checkTrapCollision, h]

lemma checkTrap_cons_hit {t : Trap} (ts : List Trap) (p : Vec3)
    (h : t.triggered = false) (hq : distSq p t.position < t.radius ^ 2) :
    checkTrapCollision (t :: ts) p =
      ({ t with triggered := true } :: ts, t.damage) := by
  simp [checkTrapCollision, h, hq]

lemma checkTrap_cons_miss {t : Trap} (ts : List Trap) (p : Vec3)
    (h : t.triggered = false) (hq : ¬(distSq p t.position < t.radius ^ 2)) :
    checkTrapCollision (t :: ts) p =
      (t :: (checkTrapCollision ts p).1, (checkTrapCollision ts p).2) := by
  simp [checkTrapCollision, h, hq]

/-- A scan in which no untriggered trap is within range returns zero
damage and changes nothing. -/
lemma checkTrap_none (traps : List Trap) (p : Vec3)
    (h : ∀ t ∈ traps, t.triggered = true ∨ ¬(distSq p t.position < t.radius ^ 2)) :
    checkTrapCollision traps p = (traps, 0) := by
  induction traps with
  | nil => rfl
  | cons t ts ih =>
    have ht := h t (List.mem_cons_self t ts)
    have hts := ih fun u hu => h u (List.mem_cons_of_mem t hu)
    rcases ht with ht | ht
    · rw [checkTrap_cons_triggered ts p ht, hts]
    · cases htr : t.triggered with
      | true => rw [checkTrap_cons_triggered ts p htr, hts]
      | false => rw [checkTrap_cons_miss ts p htr ht, hts]

/-- The first untriggered trap in range (registration order) is the one
that fires: it alone is marked triggered and its damage is returned. -/
lemma checkTrap_first (pre : List Trap) (t : Trap) (post : List Trap) (p : Vec3)
    (hpre : ∀ u ∈ pre, u.triggered = true ∨ ¬(distSq p u.position < u.radius ^ 2))
    (ht : t.triggered = false) (hq : distSq p t.position < t.radius ^ 2) :
    checkTrapCollision (pre ++ t :: post) p
      = (pre ++ { t with triggered := true } :: post, t.damage) := by
  induction pre with
  | nil => simpa using checkTrap_cons_hit post p ht hq
  | cons u pre ih =>
    have hu := hpre u (List.mem_cons_self u pre)
    have hrest := ih fun v hv => hpre v (List.mem_cons_of_mem u hv)
    rcases hu with hu | hu
    · rw [List.cons_append, checkTrap_cons_triggered _ p hu, hrest]
      exact rfl
    · cases hut : u.triggered with
      | true =>
        rw [List.cons_append, checkTrap_cons_triggered _ p hut, hrest]
        exact rfl
      | false =>
        rw [List.cons_append, checkTrap_cons_miss _ p hut hu, hrest]
        exact rfl

/-- A triggered flag survives any collision check (it is never unset). -/
lemma triggeredAt_mono (traps : List Trap) (p : Vec3) (i : ℕ)
    (h : triggeredAt traps i = true) :
    triggeredAt (checkTrapCollision traps p).1 i = true := by
  induction traps generalizing i with
  | nil => exact h
  | cons t ts ih =>
    cases htr : t.triggered with
    | true =>
      rw [checkTrap_cons_triggered ts p htr]
      cases i with
      | zero => exact htr
      | succ j =>
        rw [triggeredAt_cons_succ] at h ⊢
        exact ih j h
    | false =>
      by_cases hq : distSq p t.position < t.radius ^ 2
      · rw [checkTrap_cons_hit ts p htr hq]
        cases i with
        | zero => rfl
        | succ j => exact h
      · rw [checkTrap_cons_miss ts p htr hq]
        cases i with
        | zero => rw [triggeredAt_cons_zero] at h ⊢; exact h
        | succ j =>
          rw [triggeredAt_cons_succ] at h ⊢
          exact ih j h

/-- A triggered flag survives any sequence of collision checks. -/
lemma runChecks_mono (traps : List Trap) (ps : List Vec3) (i : ℕ)
    (h : triggeredAt traps i = true) :
    triggeredAt (runChecks traps ps) i = true := by
  induction ps generalizing traps with
  | nil => exact h
  | cons p ps ih => exact ih _ (triggeredAt_mono traps p i h)

/-- An already-triggered trap never fires again over any sequence of
checks. -/
lemma countTrapFires_zero (traps : List Trap) (ps : List Vec3) (i : ℕ)
    (h : triggeredAt traps i = true) :
    countTrapFires traps ps i = 0 := by
  induction ps generalizing traps with
  | nil => rfl
  | cons p ps ih =>
    have hfire : checkFiresAt traps p i = false := by
      unfold checkFiresAt
      simp [h]
    unfold countTrapFires
    rw [hfire]
    simpa using ih _ (triggeredAt_mono traps p i h)

/-- Each trap fires in at most one check of any sequence. -/
lemma countTrapFires_le_one (traps : List Trap) (ps : List Vec3) (i : ℕ) :
    countTrapFires traps ps i ≤ 1 := by
  induction ps generalizing traps with
  | nil => exact Nat.zero_le 1
  | cons p ps ih =>
    unfold countTrapFires
    cases hfire : checkFiresAt traps p i with
    | false => simpa using ih (checkTrapCollision traps p).1
    | true =>
      simp only [checkFiresAt] at hfire
      simp at hfire
      simp [countTrapFires_zero _ ps i hfire.2]

/-- The trap at the splitting index of an append-cons decomposition. -/
lemma triggeredAt_append_cons (pre : List Trap) (x : Trap) (post : List Trap) :
    triggeredAt (pre ++ x :: post) pre.length = x.triggered := by
  induction pre with
  | nil => rfl
  | cons u pre ih => simpa [triggeredAt_cons_succ] using ih

/-- **C8** (Hazard one-shot, deterministic order).  A collision check
scans the hazards in registration order; the first not-yet-triggered
hazard strictly within its trigger radius of the player is marked
triggered and its damage returned; the check returns zero damage and
changes nothing when no hazard qualifies; an already-triggered hazard
never fires, and over any sequence of checks each hazard deals its
damage at most once. -/
theorem hazard_one_shot (traps : List Trap) (p : Vec3) :
    ((∀ t ∈ traps, t.triggered = true ∨ ¬(distSq p t.position < t.radius ^ 2)) →
      checkTrapCollision traps p = (traps, 0)) ∧
    (∀ pre t post, traps = pre ++ t :: post →
      (∀ u ∈ pre, u.triggered = true ∨ ¬(distSq p u.position < u.radius ^ 2)) →
      t.triggered = false → distSq p t.position < t.radius ^ 2 →
      checkTrapCollision traps p
        = (pre ++ { t with triggered := true } :: post, t.damage)) ∧
    (∀ i, triggeredAt traps i = true →
      checkFiresAt traps p i = false ∧
      triggeredAt (checkTrapCollision traps p).1 i = true) ∧
    (∀ (ps : List Vec3) (i : ℕ), countTrapFires traps ps i ≤ 1) := by
  refine ⟨checkTrap_none traps p, ?_, ?_, fun ps i => countTrapFires_le_one traps ps i⟩
  · intro pre t post hsplit hpre ht hq
    rw [hsplit]
    exact checkTrap_first pre t post p hpre ht hq
  · intro i h
    refine ⟨?_, triggeredAt_mono traps p i h⟩
    unfold checkFiresAt
    simp [h]

/-- Witness for `hazard_one_shot`: standing on the first mine at (5,0,5)
fires exactly that mine for 50 damage, marking it triggered, and over two
consecutive checks there it fires at most once. -/
theorem hazard_one_shot_witness :
    checkTrapCollision initialTraps ⟨5, 0, 5⟩
      = (⟨⟨5, 0, 5⟩, 3/2, 50, true⟩ ::
         [⟨⟨-8, 0, 12⟩, 3/2, 50, false⟩, ⟨⟨12, 0, -8⟩, 3/2, 50, false⟩,
          ⟨⟨-15, 0, -5⟩, 3/2, 50, false⟩, ⟨⟨0, 0, 15⟩, 3/2, 50, false⟩], 50) ∧
    countTrapFires initialTraps [⟨5, 0, 5⟩, ⟨5, 0, 5⟩] 0 ≤ 1 := by
  have h := hazard_one_shot initialTraps ⟨5, 0, 5⟩
  refine ⟨?_, h.2.2.2 [⟨5, 0, 5⟩, ⟨5, 0, 5⟩] 0⟩
  have := h.2.1 []
    ⟨⟨5, 0, 5⟩, 3/2, 50, false⟩
    [⟨⟨-8, 0, 12⟩, 3/2, 50, false⟩, ⟨⟨12, 0, -8⟩, 3/2, 50, false⟩,
     ⟨⟨-15, 0, -5⟩, 3/2, 50, false⟩, ⟨⟨0, 0, 15⟩, 3/2, 50, false⟩]
    rfl (by simp) rfl (by norm_num [distSq])
  simpa using this

lemma sessionSpawnEnemy_traps (s : Session) :
    (sessionSpawnEnemy s).traps = s.traps := by
  unfold sessionSpawnEnemy
  split <;> rfl

lemma spawnWave_traps (s : Session) : (spawnWave s).traps = s.traps := by
  unfold spawnWave
  rw [sessionSpawnEnemy_traps, sessionSpawnEnemy_traps, sessionSpawnEnemy_traps]

/-- A concrete session in which the player has stepped on the first
mine: its `triggered` flag is set, the rest of the session is an
ordinary end-of-objective state. -/
def demoSession : Session :=
  { phase := GameState.SHIP_ACCESSIBLE
    prevPhase := some GameState.OBJECTIVE_COMPLETE
    currentTime := 20
    kills := 8
    score := 800
    level := 1
    enemiesSpawned := 8
    lastSpawnTime := 18
    totalEnemiesToSpawn := 8
    player := initialPlayer 0
    weapon := initialWeapon
    pool := initPool 15
    alive := 0
    doorOpen := true
    traps := (checkTrapCollision initialTraps ⟨5, 0, 5⟩).1 }

/-- **C9 counterexample.**  The claim states that a full game restart and
a level reset flip every hazard's `triggered` flag back to `false`.  In
the code neither `Game.resetGame` nor `Game.resetForNextLevel` (nor any
other code path) touches the trap registry: starting from a session in
which the first mine has been triggered, both resets leave its
`triggered` flag `true`, so the hazards are not re-armed. -/
theorem trap_rearm_counterexample :
    triggeredAt demoSession.traps 0 = true ∧
    triggeredAt (resetGame demoSession).traps 0 = true ∧
    triggeredAt (resetForNextLevel demoSession).traps 0 = true := by
  have hck : checkTrapCollision initialTraps ⟨5, 0, 5⟩
      = (⟨⟨5, 0, 5⟩, 3/2, 50, true⟩ ::
         [⟨⟨-8, 0, 12⟩, 3/2, 50, false⟩, ⟨⟨12, 0, -8⟩, 3/2, 50, false⟩,
          ⟨⟨-15, 0, -5⟩, 3/2, 50, false⟩, ⟨⟨0, 0, 15⟩, 3/2, 50, false⟩], 50) := by
    have := checkTrap_cons_hit (t := ⟨⟨5, 0, 5⟩, 3/2, 50, false⟩)
      [⟨⟨-8, 0, 12⟩, 3/2, 50, false⟩, ⟨⟨12, 0, -8⟩, 3/2, 50, false⟩,
       ⟨⟨-15, 0, -5⟩, 3/2, 50, false⟩, ⟨⟨0, 0, 15⟩, 3/2, 50, false⟩]
      ⟨5, 0, 5⟩ rfl (by norm_num [distSq])
    simpa [initialTraps] using this
  have h0 : triggeredAt demoSession.traps 0 = true := by
    show triggeredAt (checkTrapCollision initialTraps ⟨5, 0, 5⟩).1 0 = true
    rw [hck]
    rfl
  refine ⟨h0, ?_, ?_⟩
  · show triggeredAt demoSession.traps 0 = true
    exact h0
  · rw [show (resetForNextLevel demoSession).traps = demoSession.traps from
      spawnWave_traps _]
    exact h0

/-- **C9 as amended** (Hazard flags are never re-armed).  Each hazard's
`triggered` flag flips to true on its first qualifying proximity check
and is irreversible: it survives every later collision check, and both
`Game.resetGame` (full restart) and `Game.resetForNextLevel` (level
reset) leave the world's trap registry — `triggered` flags included —
completely unchanged. -/
theorem trap_flags_survive_resets (s : Session) :
    (resetGame s).traps = s.traps ∧
    (resetForNextLevel s).traps = s.traps ∧
    (∀ i, triggeredAt s.traps i = true →
      ∀ ps : List Vec3, triggeredAt (runChecks s.traps ps) i = true) ∧
    (∀ pre t post (pz : Vec3), s.traps = pre ++ t :: post →
      (∀ u ∈ pre, u.triggered = true ∨ ¬(distSq pz u.position < u.radius ^ 2)) →
      t.triggered = false → distSq pz t.position < t.radius ^ 2 →
      triggeredAt (checkTrapCollision s.traps pz).1 pre.length = true) := by
  refine ⟨rfl, spawnWave_traps _, ?_, ?_⟩
  · intro i h ps
    exact runChecks_mono s.traps ps i h
  · intro pre t post pz hsplit hpre ht hq
    rw [hsplit, checkTrap_first pre t post pz hpre ht hq]
    simpa using triggeredAt_append_cons pre _ post

/-- Witness for `trap_flags_survive_resets`: the triggered first mine of
`demoSession` stays triggered through two further collision checks. -/
theorem trap_flags_survive_resets_witness :
    triggeredAt (runChecks demoSession.traps [⟨0, 0, 0⟩, ⟨5, 0, 5⟩]) 0 = true := by
  apply (trap_flags_survive_resets demoSession).2.2.1 0
  have := checkTrap_cons_hit (t := ⟨⟨5, 0, 5⟩, 3/2, 50, false⟩)
    [⟨⟨-8, 0, 12⟩, 3/2, 50, false⟩, ⟨⟨12, 0, -8⟩, 3/2, 50, false⟩,
     ⟨⟨-15, 0, -5⟩, 3/2, 50, false⟩, ⟨⟨0, 0, 15⟩, 3/2, 50, false⟩]
    ⟨5, 0, 5⟩ rfl (by norm_num [distSq])
  show triggeredAt (checkTrapCollision initialTraps ⟨5, 0, 5⟩).1 0 = true
  rw [show initialTraps = ⟨⟨5, 0, 5⟩, 3/2, 50, false⟩ ::
    [⟨⟨-8, 0, 12⟩, 3/2, 50, false⟩, ⟨⟨12, 0, -8⟩, 3/2, 50, false⟩,
     ⟨⟨-15, 0, -5⟩, 3/2, 50, false⟩, ⟨⟨0, 0, 15⟩, 3/2, 50, false⟩] from rfl, this]
  rfl

/-! ## Objective transition lemmas -/

lemma setState_phase (g : GameSim) (s : GameState) : (setState g s).phase = s := by
  unfold setState
  split
  · next h => exact h
  · rfl

lemma setState_prevPhase_of_ne {g : GameSim} {s : GameState}
    (h : g.phase ≠ s) : (setState g s).prevPhase = some g.phase := by
  unfold setState
  rw [if_neg h]

lemma gameStep_tick (g : GameSim) (pd sp ni : Bool) :
    gameStep g (.tick pd sp ni) = gameTick g pd sp ni := rfl

lemma countFires_nil (g : GameSim) : countFires g [] = 0 := rfl

lemma countFires_cons (g : GameSim) (op : GameOp) (ops : List GameOp) :
    countFires g (op :: ops) =
      (if opFires g op = true then 1 else 0) + countFires (gameStep g op) ops := rfl

lemma gameRun_cons (g : GameSim) (op : GameOp) (ops : List GameOp) :
    gameRun g (op :: ops) = gameRun (gameStep g op) ops := rfl

/-- The Boolean conditions `opFires` checks on a tick, as propositions. -/
lemma opFires_tick_decode {g : GameSim} {pd sp ni : Bool}
    (h : opFires g (.tick pd sp ni) = true) :
    ¬(pd = true) ∧ objectiveCond (spawnStep g sp) = true := by
  have hd : decide (¬(pd = true) ∧ objectiveCond (spawnStep g sp) = true) = true := h
  exact of_decide_eq_true hd

lemma objectiveCond_iff (g : GameSim) :
    objectiveCond g = true ↔
      (g.phase = GameState.PLAYING ∧ g.totalEnemies ≤ g.enemiesSpawned ∧
       g.alive = 0) := by
  simp [objectiveCond]

lemma spawnStep_phase (g : GameSim) (sp : Bool) :
    (spawnStep g sp).phase = g.phase := by
  unfold spawnStep
  split <;> rfl

lemma spawnStep_total (g : GameSim) (sp : Bool) :
    (spawnStep g sp).totalEnemies = g.totalEnemies := by
  unfold spawnStep
  split <;> rfl

lemma killStep_phase (g : GameSim) : (killStep g).phase = g.phase := by
  unfold killStep
  split <;> rfl

lemma objectiveStep_phase (g : GameSim) :
    (objectiveStep g).phase = GameState.SHIP_ACCESSIBLE ∨
    (objectiveStep g).phase = g.phase := by
  unfold objectiveStep
  split
  · exact Or.inl (setState_phase _ _)
  · exact Or.inr rfl

lemma shipEntryStep_phase (g : GameSim) (ni : Bool) :
    (shipEntryStep g ni).phase = GameState.LEVEL_COMPLETE ∨
    (shipEntryStep g ni).phase = g.phase := by
  unfold shipEntryStep
  split
  · exact Or.inl (setState_phase _ _)
  · exact Or.inr rfl

/-- No operation within a level ever (re)enters the `PLAYING` phase. -/
lemma gameStep_phase_playing {g : GameSim} {op : GameOp}
    (h : (gameStep g op).phase = GameState.PLAYING) :
    g.phase = GameState.PLAYING := by
  cases op with
  | kill =>
    rw [gameStep, killStep_phase] at h
    exact h
  | tick pd sp ni =>
    rw [gameStep_tick] at h
    unfold gameTick at h
    by_cases hpd : pd = true
    · rw [if_pos hpd, setState_phase] at h
      exact absurd h (by decide)
    · rw [if_neg hpd] at h
      rcases shipEntryStep_phase (objectiveStep (spawnStep g sp)) ni with h2 | h2 <;>
        rw [h2] at h
      · exact absurd h (by decide)
      · rcases objectiveStep_phase (spawnStep g sp) with h3 | h3 <;> rw [h3] at h
        · exact absurd h (by decide)
        · rw [spawnStep_phase] at h
          exact h

/-- A tick fires the objective transition exactly when, at tick entry,
the player survives, the machine is in `PLAYING`, the spawn quota is
fully issued, and no enemy is alive. -/
lemma opFires_tick_iff (g : GameSim) (pd sp ni : Bool) :
    opFires g (.tick pd sp ni) = true ↔
      (pd = false ∧ g.phase = GameState.PLAYING ∧
       g.totalEnemies ≤ g.enemiesSpawned ∧ g.alive = 0) := by
  have hshow : opFires g (.tick pd sp ni) = true ↔
      (¬(pd = true) ∧ objectiveCond (spawnStep g sp) = true) := by
    constructor
    · exact opFires_tick_decode
    · intro hp
      show decide (¬(pd = true) ∧ objectiveCond (spawnStep g sp) = true) = true
      exact decide_eq_true hp
  rw [hshow, objectiveCond_iff, spawnStep_phase, spawnStep_total]
  unfold spawnStep
  by_cases hsp : g.phase = GameState.PLAYING ∧
      g.enemiesSpawned < g.totalEnemies ∧ sp = true
  · rw [if_pos hsp]
    obtain ⟨-, hlt, -⟩ := hsp
    simp only [Bool.not_eq_true]
    constructor
    · rintro ⟨-, -, -, hz⟩
      exact absurd hz (Nat.succ_ne_zero _)
    · rintro ⟨-, -, hle, -⟩
      omega
  · rw [if_neg hsp]
    simp only [Bool.not_eq_true]

/-- A kill never fires the transition. -/
lemma opFires_kill (g : GameSim) : opFires g .kill = false := rfl

/-- Outside `PLAYING`, nothing fires. -/
lemma opFires_false_of_not_playing {g : GameSim}
    (h : g.phase ≠ GameState.PLAYING) (op : GameOp) : opFires g op = false := by
  cases op with
  | kill => rfl
  | tick pd sp ni =>
    rw [← Bool.not_eq_true, opFires_tick_iff]
    rintro ⟨-, hp, -⟩
    exact h hp

/-- Outside `PLAYING`, the count of fired transitions over any remaining
operations is zero. -/
lemma countFires_zero_of_not_playing {g : GameSim}
    (h : g.phase ≠ GameState.PLAYING) (ops : List GameOp) :
    countFires g ops = 0 := by
  induction ops generalizing g with
  | nil => rfl
  | cons op ops ih =>
    unfold countFires
    rw [opFires_false_of_not_playing h op]
    simpa using ih (fun hp => h (gameStep_phase_playing hp))

/-- A firing tick leaves the machine outside `PLAYING`. -/
lemma gameStep_not_playing_of_fires {g : GameSim} {op : GameOp}
    (h : opFires g op = true) :
    (gameStep g op).phase ≠ GameState.PLAYING := by
  cases op with
  | kill => exact absurd h (by rw [opFires_kill]; exact Bool.false_ne_true)
  | tick pd sp ni =>
    obtain ⟨hpd, hcond⟩ := opFires_tick_decode h
    rw [gameStep_tick]
    unfold gameTick
    rw [if_neg hpd]
    have hphase : (objectiveStep (spawnStep g sp)).phase
        = GameState.SHIP_ACCESSIBLE := by
      unfold objectiveStep
      rw [if_pos hcond, setState_phase]
    rcases shipEntryStep_phase (objectiveStep (spawnStep g sp)) ni with h2 | h2 <;>
      rw [h2]
    · decide
    · rw [hphase]
      decide

/-- At most one transition fires over any operation sequence. -/
lemma countFires_le_one (g : GameSim) (ops : List GameOp) :
    countFires g ops ≤ 1 := by
  induction ops generalizing g with
  | nil => exact Nat.zero_le 1
  | cons op ops ih =>
    unfold countFires
    cases hfire : opFires g op with
    | false => simpa using ih (gameStep g op)
    | true =>
      rw [countFires_zero_of_not_playing (gameStep_not_playing_of_fires hfire) ops]
      simp

lemma countFires_append (g : GameSim) (l1 l2 : List GameOp) :
    countFires g (l1 ++ l2) = countFires g l1 + countFires (gameRun g l1) l2 := by
  induction l1 generalizing g with
  | nil =>
    show countFires g ([] ++ l2) = 0 + countFires g l2
    rw [List.nil_append, Nat.zero_add]
  | cons op l1 ih =>
    rw [List.cons_append, countFires_cons, countFires_cons, gameRun_cons,
      ih (gameStep g op)]
    omega

/-- **C2** (Objective transition ordering).  Within one level, a tick
fires the `PLAYING → OBJECTIVE_COMPLETE` transition exactly when, at
that tick, the player survives, the machine is in `PLAYING`, the full
spawn quota has been issued, and zero enemies are alive — so while fewer
than the quota have been spawned, or any enemy is alive, it never fires;
a firing tick drives the machine through `OBJECTIVE_COMPLETE` to
`SHIP_ACCESSIBLE` and out of `PLAYING`; over every sequence of ticks and
kills the transition fires at most once, and exactly once on any
sequence containing a tick at which the condition holds. -/
theorem objective_transition_once (g : GameSim) :
    (∀ pd sp ni, opFires g (.tick pd sp ni) = true ↔
        (pd = false ∧ g.phase = GameState.PLAYING ∧
         g.totalEnemies ≤ g.enemiesSpawned ∧ g.alive = 0)) ∧
    (∀ pd sp ni, opFires g (.tick pd sp ni) = true →
        (objectiveStep (spawnStep g sp)).phase = GameState.SHIP_ACCESSIBLE ∧
        (objectiveStep (spawnStep g sp)).prevPhase
          = some GameState.OBJECTIVE_COMPLETE ∧
        (gameStep g (.tick pd sp ni)).phase ≠ GameState.PLAYING) ∧
    (∀ ops : List GameOp, countFires g ops ≤ 1) ∧
    (∀ (ops1 ops2 : List GameOp) (pd sp ni : Bool),
      pd = false → (gameRun g ops1).phase = GameState.PLAYING →
      (gameRun g ops1).totalEnemies ≤ (gameRun g ops1).enemiesSpawned →
      (gameRun g ops1).alive = 0 →
      countFires g (ops1 ++ GameOp.tick pd sp ni :: ops2) = 1) := by
  refine ⟨opFires_tick_iff g, ?_, countFires_le_one g, ?_⟩
  · intro pd sp ni h
    obtain ⟨hpd, hcond⟩ := opFires_tick_decode h
    have hphase : (objectiveStep (spawnStep g sp)).phase
        = GameState.SHIP_ACCESSIBLE := by
      unfold objectiveStep
      rw [if_pos hcond, setState_phase]
    have hplaying : (spawnStep g sp).phase = GameState.PLAYING :=
      ((objectiveCond_iff _).mp hcond).1
    refine ⟨hphase, ?_, gameStep_not_playing_of_fires h⟩
    have hne2 : (setState (spawnStep g sp)
        GameState.OBJECTIVE_COMPLETE).phase ≠ GameState.SHIP_ACCESSIBLE := by
      rw [setState_phase]
      decide
    unfold objectiveStep
    rw [if_pos hcond, setState_prevPhase_of_ne hne2, setState_phase]
  · intro ops1 ops2 pd sp ni hpd hpl hquota hzero
    have hfire : opFires (gameRun g ops1) (.tick pd sp ni) = true :=
      (opFires_tick_iff _ pd sp ni).mpr ⟨hpd, hpl, hquota, hzero⟩
    have happ := countFires_append g ops1 (GameOp.tick pd sp ni :: ops2)
    have hle := countFires_le_one g (ops1 ++ GameOp.tick pd sp ni :: ops2)
    rw [countFires_cons, hfire] at happ
    norm_num at happ
    omega

/-- Witness for `objective_transition_once`: a level with a quota of two
enemies — two spawning ticks, two kills, then a plain tick — fires the
transition exactly once. -/
theorem objective_transition_once_witness :
    countFires ⟨GameState.PLAYING, none, 0, 2, 0⟩
      ([GameOp.tick false true false, GameOp.tick false true false,
        GameOp.kill, GameOp.kill] ++ GameOp.tick false false false :: []) = 1 :=
  (objective_transition_once ⟨GameState.PLAYING, none, 0, 2, 0⟩).2.2.2
    [GameOp.tick false true false, GameOp.tick false true false,
     GameOp.kill, GameOp.kill] [] false false false rfl
    (by decide) (by decide) (by decide)
